import Mathlib

/-!
Verification development for the Shadow assistant's intent interpretation and
dispatch pipeline.  The Python sources are shallowly embedded: text is a list
of characters, Python floats appearing as confidences/timestamps are exact
rationals, stateful objects are explicit state records, and fallible calls
are `Option` parameters describing the outcome of the external call.
-/

/-- Text is modelled as a list of characters. -/
abbrev Text := List Char

/-- Coercion helper from string literals to the text model. -/
def str (s : String) : Text := s.data

/-- Python `str.lower()` restricted to ASCII, which is the alphabet of every
table in the embedded sources (`Char.toLower` lowercases exactly A-Z). -/
def lowerAscii (t : Text) : Text := t.map Char.toLower

/-- Python `needle in haystack` (substring containment test). -/
def containsSub (haystack needle : Text) : Bool := decide (needle <:+: haystack)

/-- Python `any(word in text for word in words)`. -/
def containsAnyWord (t : Text) (words : List Text) : Bool :=
  words.any (fun w => containsSub t w)

/-- `IntentType` enum of `shadow_core/dynamic_nlu.py` (closed, 9 members). -/
inductive IntentType where
  | MESSAGING
  | KNOWLEDGE
  | SCHEDULING
  | AUTOMATION
  | SYSTEM
  | FILE_OPS
  | WEB
  | CHAT
  | UNKNOWN
deriving DecidableEq, Repr

/-- The `.value` string of each `IntentType` member. -/
def intentTypeValue : IntentType → Text
  | .MESSAGING => str "messaging"
  | .KNOWLEDGE => str "knowledge"
  | .SCHEDULING => str "scheduling"
  | .AUTOMATION => str "automation"
  | .SYSTEM => str "system"
  | .FILE_OPS => str "file_operations"
  | .WEB => str "web_operations"
  | .CHAT => str "chat"
  | .UNKNOWN => str "unknown"

/-- The closed set of enum value strings. -/
def closedIntentValues : List Text :=
  [str "messaging", str "knowledge", str "scheduling", str "automation",
   str "system", str "file_operations", str "web_operations", str "chat",
   str "unknown"]

/-- Python `IntentType(s)` as a total function: `some` member on a valid value
string, `none` where the Python constructor raises `ValueError`. -/
def intentTypeOfString (s : Text) : Option IntentType :=
  if s = str "messaging" then some .MESSAGING
  else if s = str "knowledge" then some .KNOWLEDGE
  else if s = str "scheduling" then some .SCHEDULING
  else if s = str "automation" then some .AUTOMATION
  else if s = str "system" then some .SYSTEM
  else if s = str "file_operations" then some .FILE_OPS
  else if s = str "web_operations" then some .WEB
  else if s = str "chat" then some .CHAT
  else if s = str "unknown" then some .UNKNOWN
  else none

/-- `DynamicIntent` dataclass of `shadow_core/dynamic_nlu.py`. -/
structure DynamicIntent where
  intent_type : IntentType
  confidence : ℚ
  action : Text
  target : Text
  parameters : List (Text × Text)
  context : List (Text × Text)
  reasoning : Text
deriving DecidableEq, Repr

/-- Outcome of extracting a JSON object from the AI response in
`AdvancedInterpreter._parse_advanced_response`.  Each field is `some` when the
key is present in the parsed JSON.  The `confidence` field is doubly optional:
the inner `none` stands for a present value on which Python `float(...)`
raises (a non-numeric value). -/
structure RespData where
  intent_type : Option Text
  confidence : Option (Option ℚ)
  action : Option Text
  target : Option Text
  parameters : Option (List (Text × Text))
  reasoning : Option Text
deriving DecidableEq, Repr

/-- `AdvancedInterpreter._create_fallback_intent` (dynamic_nlu.py 340-374):
keyword ladder over the lowercased text, fixed confidence 0.3. -/
def createFallbackIntent (text : Text) : DynamicIntent :=
  let tl := lowerAscii text
  let reason := str "Fallback analysis based on basic keyword detection"
  if containsAnyWord tl [str "weather", str "temperature", str "forecast"] then
    ⟨.KNOWLEDGE, 0.3, str "get_weather", str "current location",
      [(str "query", text)], [], reason⟩
  else if containsAnyWord tl [str "message", str "tell", str "send", str "notify"] then
    ⟨.MESSAGING, 0.3, str "send_message", str "contact",
      [(str "query", text)], [], reason⟩
  else if containsAnyWord tl [str "remind", str "alarm", str "timer", str "schedule"] then
    ⟨.SCHEDULING, 0.3, str "set_reminder", str "task",
      [(str "query", text)], [], reason⟩
  else if containsAnyWord tl [str "open", str "close", str "start", str "run"] then
    ⟨.AUTOMATION, 0.3, str "open_app", str "application",
      [(str "query", text)], [], reason⟩
  else
    ⟨.CHAT, 0.3, str "respond", str "user",
      [(str "query", text)], [], reason⟩

/-- `AdvancedInterpreter._parse_advanced_response` (dynamic_nlu.py 301-338).
The argument `resp` is the result of the JSON extraction step: `none` when no
JSON object was found or `json.loads` failed.  Every exception path of the
Python code (missing required field, non-numeric confidence, out-of-enum
intent type) returns the fallback intent. -/
def parseAdvancedResponse (resp : Option RespData) (originalText : Text) : DynamicIntent :=
  match resp with
  | none => createFallbackIntent originalText
  | some d =>
    match d.intent_type, d.confidence, d.action, d.target, d.parameters, d.reasoning with
    | some its, some confv, some act, some tgt, some ps, some rsn =>
      match confv with
      | none => createFallbackIntent originalText
      | some c =>
        let c2 := if 0 ≤ c ∧ c ≤ 1 then c else 0.5
        match intentTypeOfString its with
        | none => createFallbackIntent originalText
        | some ty => ⟨ty, c2, act, tgt, ps, [], rsn⟩
    | _, _, _, _, _, _ => createFallbackIntent originalText

/-- A response parses without any exception: all six required fields present,
confidence numeric, intent-type string a member of the closed enum. -/
def wellFormedResp (d : RespData) : Bool :=
  match d.intent_type, d.confidence, d.action, d.target, d.parameters, d.reasoning with
  | some its, some (some _), some _, some _, some _, some _ =>
    (intentTypeOfString its).isSome
  | _, _, _, _, _, _ => false

/-- Intent-type enum of the `intelligent_interpreter` module as consumed by
`DecisionEngine._execute_intelligent_intent` (decision_engine.py 235-251): the
dispatch switch names SCHEDULING, MESSAGING, INFORMATION and AUTOMATION and
sends every other member to the chat fallback. -/
inductive IIType where
  | SCHEDULING
  | MESSAGING
  | INFORMATION
  | AUTOMATION
  | CHAT
  | UNKNOWN
deriving DecidableEq, Repr

/-- The fields of `InterpretedIntent` consumed by the dispatch step. -/
structure InterpretedIntent where
  intent_type : IIType
  confidence : ℚ
  needs_clarification : Bool
deriving DecidableEq, Repr

/-- The handler coroutine invoked by the dispatch switch. -/
inductive HandlerCall where
  | intelligentScheduling
  | intelligentMessaging
  | intelligentInformation
  | intelligentAutomation
  | chatFallback
deriving DecidableEq, Repr

/-- `DecisionEngine._execute_intelligent_intent` (decision_engine.py 235-251):
a pure switch on `intent.intent_type`; no other field is read. -/
def executeIntelligentIntent (intent : InterpretedIntent) : HandlerCall :=
  match intent.intent_type with
  | .SCHEDULING => .intelligentScheduling
  | .MESSAGING => .intelligentMessaging
  | .INFORMATION => .intelligentInformation
  | .AUTOMATION => .intelligentAutomation
  | _ => .chatFallback

/-- Whether the invoked handler resolves to `_handle_chat`: per
decision_engine.py 611-621 the messaging, information and automation handlers
simply `return await self._handle_chat(...)`, while
`_handle_intelligent_scheduling` (253-273) runs the scheduling capability. -/
def handlerResolvesToChat : HandlerCall → Bool
  | .intelligentScheduling => false
  | .intelligentMessaging => true
  | .intelligentInformation => true
  | .intelligentAutomation => true
  | .chatFallback => true

/-- A concrete low-confidence scheduling intent (confidence 0.1 < 0.3). -/
def lowConfSchedulingIntent : InterpretedIntent :=
  ⟨.SCHEDULING, 0.1, false⟩

/-- `IntentResult` dataclass of `shadow_core/nlu.py`. -/
structure IntentResult where
  intent : Text
  confidence : ℚ
  entities : List (Text × Text)
deriving DecidableEq, Repr

/-- Python `not text or not text.strip()`. -/
def isBlank (t : Text) : Bool := t.all Char.isWhitespace

/-- `NLU._calculate_pattern_confidence` (nlu.py 356-370): step function of the
match coverage `(match.end() - match.start()) / len(text)`. -/
def calculatePatternConfidence (matchStart matchEnd textLen : ℕ) : ℚ :=
  let matchLength : ℕ := matchEnd - matchStart
  let coverage : ℚ := (matchLength : ℚ) / (textLen : ℚ)
  if coverage > 0.8 then 0.95
  else if coverage > 0.5 then 0.85
  else 0.75

/-- Modelled from the spec: the fixed step function of coverage named in §4.3
("coverage > 0.8 → 0.95, > 0.5 → 0.85, else → 0.75"), to be compared with the
source function `calculatePatternConfidence`. -/
def specStepConfidence (coverage : ℚ) : ℚ :=
  if coverage > 0.8 then 0.95
  else if coverage > 0.5 then 0.85
  else 0.75

/-- `NLU.classify` (nlu.py 196-227), embedded over the outcomes of its three
tiers.  `ruleResult` and `keywordResult` are the values of
`_rule_based_classification` and `_keyword_based_classification` for this
text; `aiResult` is the value `_ai_classification` would produce.  The second
component records whether `brain.ask` is reached: `_ai_classification`
(nlu.py 295-354) calls `brain.ask` exactly when the brain is present and does
not carry the `Gemini_mode` attribute, and `classify` only enters Step 3 when
the earlier tiers did not return. -/
def nluClassify (text : Text) (ruleResult keywordResult : IntentResult)
    (hasBrain geminiMode : Bool) (aiResult : IntentResult) :
    (Text × List (Text × Text)) × Bool :=
  if isBlank text then ((str "chat", []), false)
  else if ruleResult.confidence > 0.8 then
    ((ruleResult.intent, ruleResult.entities), false)
  else if keywordResult.confidence > 0.6 then
    ((keywordResult.intent, keywordResult.entities), false)
  else if hasBrain then
    let askCalled := !geminiMode
    if aiResult.confidence > 0.7 then
      ((aiResult.intent, aiResult.entities), askCalled)
    else ((str "chat", []), askCalled)
  else ((str "chat", []), false)

/-- One scan step of Python `str.replace(pat, rep)`: non-overlapping, left to
right, the replacement itself is not rescanned.  Structural in the fuel; with
fuel `t.length` every occurrence is processed, because each step consumes at
least one character of the text. -/
def replaceAllFuel (pat rep : Text) : ℕ → Text → Text
  | 0, t => t
  | _ + 1, [] => []
  | fuel + 1, c :: rest =>
    if pat ≠ [] ∧ pat.isPrefixOf (c :: rest) then
      rep ++ replaceAllFuel pat rep fuel ((c :: rest).drop pat.length)
    else
      c :: replaceAllFuel pat rep fuel rest

/-- Python `t.replace(pat, rep)` for a non-empty pattern. -/
def replaceAll (pat rep t : Text) : Text := replaceAllFuel pat rep t.length t

/-- One table entry application inside the normalizers: Python
`if variant in normalized_text: normalized_text = normalized_text.replace(variant, standard)`. -/
def applyVariation (t standard variant : Text) : Text :=
  if containsSub t variant then replaceAll variant standard t else t

/-- The `variations` table of `DecisionEngine._normalize_roman_urdu`
(decision_engine.py 194-214), in dict insertion order. -/
def romanUrduVariations : List (Text × List Text) :=
  [(str "kaise", [str "kaise", str "kese", str "kaisey", str "kesay"]),
   (str "ho", [str "ho", str "hou", str "how"]),
   (str "aap", [str "aap", str "ap", str "aapne", str "apne"]),
   (str "main", [str "main", str "mein", str "me", str "mai"]),
   (str "theek", [str "theek", str "thik", str "theik", str "thik"]),
   (str "shukriya", [str "shukriya", str "shukria", str "shukariya"]),
   (str "salam", [str "salam", str "salaam", str "slaam"]),
   (str "alaikum", [str "alaikum", str "alaykum", str "alikum"])]

/-- The `variations` table of `DecisionEngine._normalize_roman_pashto`
(decision_engine.py 216-233), in dict insertion order. -/
def romanPashtoVariations : List (Text × List Text) :=
  [(str "sta", [str "sta", str "staso", str "stase"]),
   (str "yast", [str "yast", str "yaste", str "yasti"]),
   (str "kaw", [str "kaw", str "kawe", str "kawi"]),
   (str "manana", [str "manana", str "manena", str "manina"]),
   (str "mehrbani", [str "mehrbani", str "mehrabi", str "mehrbani"])]

/-- Application of a whole variation table after lowercasing, as both
normalizers do. -/
def normalizeWithTable (table : List (Text × List Text)) (text : Text) : Text :=
  table.foldl
    (fun acc entry => entry.2.foldl (fun a v => applyVariation a entry.1 v) acc)
    (lowerAscii text)

/-- `DecisionEngine._normalize_roman_urdu` (decision_engine.py 194-214). -/
def normalizeRomanUrdu (text : Text) : Text :=
  normalizeWithTable romanUrduVariations text

/-- `DecisionEngine._normalize_roman_pashto` (decision_engine.py 216-233). -/
def normalizeRomanPashto (text : Text) : Text :=
  normalizeWithTable romanPashtoVariations text

/-- An intent summary as appended to `recent_intents` by both context update
methods in dynamic_nlu.py; the timestamp string is passed in explicitly
(`datetime.now().isoformat()` in the source). -/
structure IntentSummary where
  intent : Text
  action : Text
  target : Text
  timestamp : Text
deriving DecidableEq, Repr

/-- The summary dict built from a `DynamicIntent`. -/
def summarizeIntent (i : DynamicIntent) (ts : Text) : IntentSummary :=
  ⟨intentTypeValue i.intent_type, i.action, i.target, ts⟩

/-- The conversation-context fields touched by the update methods. -/
structure ConversationContext where
  current_topic : Option Text
  recent_intents : List IntentSummary
deriving DecidableEq, Repr

/-- The initial context of both interpreter classes:
`current_topic = None`, `recent_intents = []`. -/
def emptyConversationContext : ConversationContext := ⟨none, []⟩

/-- The shared recent-intents buffer step: append, then `pop(0)` once the
length exceeds 5 (dynamic_nlu.py 383-392 and 473-482). -/
def pushRecentIntent (recents : List IntentSummary) (s : IntentSummary) :
    List IntentSummary :=
  let r := recents ++ [s]
  if 5 < r.length then r.tail else r

/-- `ContextAwareInterpreter._update_conversation_context`
(dynamic_nlu.py 465-482): topic overwritten unless the intent type is CHAT,
then the FIFO buffer push.  (The mood inference touches a field outside this
structure.) -/
def updateConversationContext (ctx : ConversationContext) (i : DynamicIntent)
    (ts : Text) : ConversationContext :=
  let topic := if i.intent_type ≠ IntentType.CHAT then some i.target else ctx.current_topic
  ⟨topic, pushRecentIntent ctx.recent_intents (summarizeIntent i ts)⟩

/-- `AdvancedInterpreter._update_advanced_context` (dynamic_nlu.py 376-392):
topic overwritten when the target is non-empty and not "user", then the same
FIFO buffer push. -/
def updateAdvancedContext (ctx : ConversationContext) (i : DynamicIntent)
    (ts : Text) : ConversationContext :=
  let topic :=
    if i.target ≠ [] ∧ i.target ≠ str "user" then some i.target
    else ctx.current_topic
  ⟨topic, pushRecentIntent ctx.recent_intents (summarizeIntent i ts)⟩

/-- The mutable rate-limit state of `GeminiFlashBrain` (free_gemini.py 22-46);
`ShadowBrain` in brain.py carries the identical fields and logic.  Wall-clock
times are exact rationals (seconds). -/
structure BrainState where
  request_timestamps : List ℚ
  daily_requests : ℕ
  last_reset_time : ℚ
deriving DecidableEq, Repr

/-- `self.requests_per_minute = 55` (free_gemini.py 36). -/
def requestsPerMinute : ℕ := 55

/-- `self.requests_per_day = 1400` (free_gemini.py 37). -/
def requestsPerDay : ℕ := 1400

/-- The daily-counter reset at the top of `_check_rate_limits`
(free_gemini.py 67-72). -/
def resetIfNewDay (s : BrainState) (now : ℚ) : BrainState :=
  if 86400 < now - s.last_reset_time then
    { s with daily_requests := 0, last_reset_time := now }
  else s

/-- `len([ts for ts in self.request_timestamps if ts > minute_ago])`
(free_gemini.py 80-83). -/
def recentRequestCount (s : BrainState) (now : ℚ) : ℕ :=
  (s.request_timestamps.filter (fun ts => now - 60 < ts)).length

/-- `GeminiFlashBrain._check_rate_limits` (free_gemini.py 65-87): the Boolean
verdict together with the state after the possible daily reset. -/
def checkRateLimits (s : BrainState) (now : ℚ) : Bool × BrainState :=
  let s1 := resetIfNewDay s now
  if requestsPerDay ≤ s1.daily_requests then (false, s1)
  else if requestsPerMinute ≤ recentRequestCount s1 now then (false, s1)
  else (true, s1)

/-- The fixed rate-limited user message returned by `ask` in both
free_gemini.py (line 99) and brain.py (line 61). -/
def rateLimitMessage : Text :=
  str "I\x27ve reached my free API limit for now. Please try again in a minute."

/-- The request tracking done by `ask` after the rate check passes
(free_gemini.py 101-108): append the current timestamp, increment the daily
counter, then drop timestamps older than two minutes. -/
def recordRequest (s : BrainState) (now : ℚ) : BrainState :=
  { request_timestamps :=
      (s.request_timestamps ++ [now]).filter (fun ts => now - 120 < ts),
    daily_requests := s.daily_requests + 1,
    last_reset_time := s.last_reset_time }

/-- What `ask` does before any network traffic: either the rate-limited
message (no model request attempted), or a model attempt with the updated
tracking state. -/
inductive AskOutcome where
  | rateLimited (msg : Text)
  | modelAttempt (s : BrainState)
deriving DecidableEq, Repr

/-- The rate-limit gate of `GeminiFlashBrain.ask` (free_gemini.py 95-108):
everything `ask` does up to the point where a model request would be issued. -/
def geminiAskGate (s : BrainState) (now : ℚ) : AskOutcome :=
  let check := checkRateLimits s now
  if check.1 then .modelAttempt (recordRequest check.2 now)
  else .rateLimited rateLimitMessage

/-- `GeminiFlashBrain.ask` under persistent API failure (free_gemini.py
95-154): when every `generate_content` call raises, the `except` branch with
more than one API key re-enters `self.ask(messages)`, which is re-guarded by
`_check_rate_limits`; with at most one key it returns `_get_fallback_response()`
(modelled by the `fallbackMsg` parameter).  The fuel bounds the recursion
depth; `none` means the fuel ran out before the function returned. -/
def askUnderFailure (numKeys : ℕ) (fallbackMsg : Text) :
    ℕ → BrainState → ℚ → Option Text
  | 0, _, _ => none
  | fuel + 1, s, now =>
    match geminiAskGate s now with
    | .rateLimited msg => some msg
    | .modelAttempt s2 =>
      if 1 < numKeys then askUnderFailure numKeys fallbackMsg fuel s2 now
      else some fallbackMsg

/-- The `roman_urdu_indicators` list of `DecisionEngine._is_roman_urdu`
(decision_engine.py 159-167), verbatim, including the repeated entry
"theek". -/
def romanUrduIndicators : List Text :=
  [str "kaise", str "ho", str "aap", str "main", str "theek", str "shukriya",
   str "madad", str "kya", str "kar", str "sakte", str "sakta", str "sakti",
   str "mujhe", str "mera", str "meri", str "hai", str "hain", str "hun",
   str "thi", str "the", str "kyun", str "kahan", str "kaun", str "acha",
   str "theek", str "bilkul", str "zaroor", str "yaqeen", str "sach",
   str "jhoot", str "salam", str "alaikum", str "khuda", str "hafiz",
   str "maaf", str "kijiye", str "barah", str "karam", str "awaz", str "sun",
   str "rahe", str "jawab", str "do", str "yahan", str "koi", str "masla",
   str "nahi", str "phir", str "koshish", str "karein"]

/-- The indicator lexicon with the duplicate removed (the entries before the
second "theek", then the entries after it). -/
def distinctRomanUrduIndicators : List Text :=
  [str "kaise", str "ho", str "aap", str "main", str "theek", str "shukriya",
   str "madad", str "kya", str "kar", str "sakte", str "sakta", str "sakti",
   str "mujhe", str "mera", str "meri", str "hai", str "hain", str "hun",
   str "thi", str "the", str "kyun", str "kahan", str "kaun", str "acha",
   str "bilkul", str "zaroor", str "yaqeen", str "sach",
   str "jhoot", str "salam", str "alaikum", str "khuda", str "hafiz",
   str "maaf", str "kijiye", str "barah", str "karam", str "awaz", str "sun",
   str "rahe", str "jawab", str "do", str "yahan", str "koi", str "masla",
   str "nahi", str "phir", str "koshish", str "karein"]

/-- `re.search(r'[؀-ۿ]', text)` as used on line 173 of
decision_engine.py. -/
def hasUrduScript (t : Text) : Bool :=
  t.any (fun c => decide (0x0600 ≤ c.toNat ∧ c.toNat ≤ 0x06FF))

/-- `DecisionEngine._is_roman_urdu` (decision_engine.py 157-175): the score
sums one point per list entry occurring in the lowercased text (the repeated
entry can score twice), and the verdict additionally requires the absence of
Arabic-script codepoints. -/
def isRomanUrdu (t : Text) : Bool :=
  let tl := lowerAscii t
  let score := (romanUrduIndicators.filter (fun w => containsSub tl w)).length
  decide (2 ≤ score) && !hasUrduScript t

/-- The number of distinct lexicon words occurring in the lowercased text. -/
def distinctIndicatorHits (t : Text) : ℕ :=
  (distinctRomanUrduIndicators.filter (fun w => containsSub (lowerAscii t) w)).length

/-- `UrduPashtoTranslator.translate_text` (multilingual.py 291-328) over the
outcomes of its collaborators.  `cacheHit` is the translation-cache lookup for
`(sourceLang, targetLang, text)`; `brainResult` is `none` when `brain.ask`
raises.  An empty `sourceLang` is falsy, so the source then evaluates
`await self.detect_language_simple(text)` — awaiting a plain string raises
`TypeError`, which the enclosing `except` turns into returning the original
text.  The Boolean records whether `brain.ask` was invoked. -/
def translateText (text targetLang sourceLang : Text)
    (cacheHit : Option Text) (brainResult : Option Text) : Text × Bool :=
  if sourceLang = [] then (text, false)
  else if sourceLang = targetLang then (text, false)
  else
    match cacheHit with
    | some cached => (cached, false)
    | none =>
      match brainResult with
      | some translation => (translation, true)
      | none => (text, true)

/-- C4: for every regex match, `_calculate_pattern_confidence` assigns exactly
the fixed step function of coverage (matched-span length over text length):
0.95 above coverage 0.8, 0.85 above 0.5, otherwise 0.75; in particular the
assigned confidence is always one of these three constants. -/
theorem c4_pattern_confidence_step_function :
    ∀ (matchStart matchEnd textLen : ℕ),
      calculatePatternConfidence matchStart matchEnd textLen =
        specStepConfidence (((matchEnd - matchStart : ℕ) : ℚ) / (textLen : ℚ)) ∧
      calculatePatternConfidence matchStart matchEnd textLen ∈
        ([0.95, 0.85, 0.75] : List ℚ) := by
  intro mS mE L
  refine ⟨rfl, ?_⟩
  unfold calculatePatternConfidence
  dsimp only
  split_ifs <;> simp

set_option maxRecDepth 100000 in
/-- C5: the claimed idempotence of normalization fails on the code.  The
Roman-Urdu table replaces the substring "ap" by "aap", so the canonical word
"aap" itself maps to "aaap" and a second application yields "aaaap": the
spelling-variant collapse is not a projection. -/
theorem c5_normalize_roman_urdu_not_idempotent :
    normalizeRomanUrdu (str "aap") = str "aaap" ∧
    normalizeRomanUrdu (normalizeRomanUrdu (str "aap")) = str "aaaap" ∧
    normalizeRomanUrdu (normalizeRomanUrdu (str "aap")) ≠
      normalizeRomanUrdu (str "aap") :=
  ⟨by decide, by decide, by decide⟩

/-- C10: translation is the identity when source and target languages
coincide — the brain is never invoked — and when every internal step fails
(no cache hit, `brain.ask` raises) the original text is returned instead of
an exception propagating. -/
theorem c10_translate_identity_and_error_return :
    (∀ (text lang : Text) (cacheHit brainResult : Option Text),
      translateText text lang lang cacheHit brainResult = (text, false)) ∧
    (∀ (text target source : Text),
      (translateText text target source none none).1 = text) := by
  constructor
  · intro text lang cacheHit brainResult
    by_cases h : lang = ([] : Text) <;> simp [translateText, h]
  · intro text target source
    by_cases h1 : source = ([] : Text) <;>
      by_cases h2 : source = target <;>
        simp [translateText, h1, h2]

/-- C2 counterexample: a scheduling intent with confidence 0.1 (below the
claimed 0.3 floor) is dispatched by `_execute_intelligent_intent` to the
scheduling capability handler, not to the chat fallback. -/
theorem c2_counterexample_low_confidence_scheduling :
    lowConfSchedulingIntent.confidence < 0.3 ∧
    executeIntelligentIntent lowConfSchedulingIntent =
      HandlerCall.intelligentScheduling ∧
    handlerResolvesToChat (executeIntelligentIntent lowConfSchedulingIntent) =
      false :=
  ⟨by norm_num [lowConfSchedulingIntent], rfl, rfl⟩

/-- C2 (amended): the dispatch step applies no confidence floor and routes on
the intent type alone: a SCHEDULING intent always reaches the scheduling
handler, whatever its confidence, and every other intent type ends in the
chat fallback (the messaging, information and automation handlers delegate
straight to `_handle_chat`). -/
theorem c2_amended_dispatch_ignores_confidence :
    ∀ intent : InterpretedIntent,
      (intent.intent_type = IIType.SCHEDULING →
        executeIntelligentIntent intent = HandlerCall.intelligentScheduling) ∧
      (intent.intent_type ≠ IIType.SCHEDULING →
        handlerResolvesToChat (executeIntelligentIntent intent) = true) := by
  intro intent
  constructor
  · intro h
    simp [executeIntelligentIntent, h]
  · intro h
    cases hi : intent.intent_type <;>
      simp_all [executeIntelligentIntent, handlerResolvesToChat]

/-- Witness for the amended C2 theorem at the concrete low-confidence
scheduling intent. -/
theorem c2_amended_dispatch_ignores_confidence_witness :
    executeIntelligentIntent lowConfSchedulingIntent =
      HandlerCall.intelligentScheduling :=
  (c2_amended_dispatch_ignores_confidence lowConfSchedulingIntent).1 rfl

/-- C3: a Tier-1 pattern match whose coverage exceeds 0.8 scores 0.95, and
whenever the Tier-1 result exceeds confidence 0.8 (for non-blank text),
`classify` returns that result immediately with `brain.ask` never invoked. -/
theorem c3_tier1_short_circuits_ai :
    (∀ (matchStart matchEnd textLen : ℕ),
      (0.8 : ℚ) < ((matchEnd - matchStart : ℕ) : ℚ) / (textLen : ℚ) →
      calculatePatternConfidence matchStart matchEnd textLen = 0.95 ∧
        (0.8 : ℚ) < 0.95) ∧
    (∀ (text : Text) (ruleResult keywordResult aiResult : IntentResult)
       (hasBrain geminiMode : Bool),
      isBlank text = false →
      ruleResult.confidence > 0.8 →
      nluClassify text ruleResult keywordResult hasBrain geminiMode aiResult =
        ((ruleResult.intent, ruleResult.entities), false)) := by
  constructor
  · intro mS mE L h
    refine ⟨?_, by norm_num⟩
    simp [calculatePatternConfidence, h]
  · intro text ruleResult keywordResult aiResult hasBrain geminiMode htext hconf
    simp [nluClassify, htext, hconf]

/-- Witness for C3: a concrete high-coverage match and a concrete Tier-1
result above the threshold short-circuit as stated. -/
theorem c3_tier1_short_circuits_ai_witness :
    calculatePatternConfidence 0 9 10 = 0.95 ∧
    nluClassify (str "weather in tokyo")
        ⟨str "get_weather", 0.95, [(str "location", str "tokyo")]⟩
        ⟨str "chat", 0, []⟩ true false ⟨str "chat", 0.5, []⟩ =
      ((str "get_weather", [(str "location", str "tokyo")]), false) :=
  ⟨(c3_tier1_short_circuits_ai.1 0 9 10 (by norm_num)).1,
   c3_tier1_short_circuits_ai.2 (str "weather in tokyo")
     ⟨str "get_weather", 0.95, [(str "location", str "tokyo")]⟩
     ⟨str "chat", 0, []⟩ ⟨str "chat", 0.5, []⟩ true false
     (by decide) (by norm_num)⟩

/-- C7: whenever the daily counter (after the daily-reset step) has reached
its 1400 budget, or the rolling count of requests in the last minute has
reached its 55 budget, `ask` returns the fixed rate-limited message and no
model request is attempted. -/
theorem c7_rate_limit_short_circuit :
    ∀ (s : BrainState) (now : ℚ),
      (requestsPerDay ≤ (resetIfNewDay s now).daily_requests ∨
        requestsPerMinute ≤ recentRequestCount s now) →
      geminiAskGate s now = AskOutcome.rateLimited rateLimitMessage := by
  intro s now h
  have hts : recentRequestCount (resetIfNewDay s now) now = recentRequestCount s now := by
    unfold resetIfNewDay recentRequestCount
    split_ifs <;> rfl
  by_cases hd : requestsPerDay ≤ (resetIfNewDay s now).daily_requests
  · simp [geminiAskGate, checkRateLimits, hd]
  · rcases h with h | h
    · exact absurd h hd
    · simp [geminiAskGate, checkRateLimits, hd, hts, h]

/-- Witness for C7: a state whose daily counter sits exactly at the budget is
short-circuited to the rate-limited message. -/
theorem c7_rate_limit_short_circuit_witness :
    geminiAskGate ⟨[], 1400, 0⟩ 0 = AskOutcome.rateLimited rateLimitMessage :=
  c7_rate_limit_short_circuit ⟨[], 1400, 0⟩ 0
    (Or.inl (by norm_num [resetIfNewDay, requestsPerDay]))

/-- C1: the classifier's parse step only ever returns intents whose type is a
member of the closed enum, and on any malformed response (no JSON object,
missing required field, non-numeric confidence, or out-of-enum intent type)
it discards the AI result and returns the keyword fallback intent. -/
theorem c1_parse_closed_enum_and_fallback :
    ∀ (resp : Option RespData) (t : Text),
      intentTypeValue (parseAdvancedResponse resp t).intent_type ∈
        closedIntentValues ∧
      ((∀ d, resp = some d → wellFormedResp d = false) →
        parseAdvancedResponse resp t = createFallbackIntent t) := by
  have hmem : ∀ ty : IntentType, intentTypeValue ty ∈ closedIntentValues := by
    intro ty
    cases ty <;> decide
  intro resp t
  refine ⟨hmem _, ?_⟩
  intro h
  cases resp with
  | none => rfl
  | some d =>
    have hd : wellFormedResp d = false := h d rfl
    obtain ⟨it, cf, ac, tg, ps, rs⟩ := d
    cases it with
    | none => rfl
    | some its =>
      cases cf with
      | none => rfl
      | some confv =>
        cases ac with
        | none => rfl
        | some act =>
          cases tg with
          | none => rfl
          | some tgt =>
            cases ps with
            | none => rfl
            | some params =>
              cases rs with
              | none => rfl
              | some rsn =>
                cases confv with
                | none => rfl
                | some c =>
                  cases hit : intentTypeOfString its with
                  | some ty =>
                    rw [show wellFormedResp ⟨some its, some (some c), some act,
                          some tgt, some params, some rsn⟩ =
                        (intentTypeOfString its).isSome from rfl, hit] at hd
                    simp at hd
                  | none =>
                    simp [parseAdvancedResponse, hit]

/-- Witness for C1: a response whose intent-type string is outside the closed
enum is discarded in favour of the fallback intent. -/
theorem c1_parse_closed_enum_and_fallback_witness :
    parseAdvancedResponse
        (some ⟨some (str "teleport"), some (some 1), some (str "jump"),
          some (str "home"), some [], some (str "because")⟩)
        (str "hello there") =
      createFallbackIntent (str "hello there") :=
  (c1_parse_closed_enum_and_fallback _ _).2 (fun d h => by cases h; decide)

/-- Folding the FIFO push over any input list, starting from a buffer of at
most 5 entries, keeps exactly the last 5 elements of the concatenation. -/
theorem foldl_pushRecentIntent_eq_drop :
    ∀ (l : List IntentSummary) (s : List IntentSummary), s.length ≤ 5 →
      l.foldl pushRecentIntent s = (s ++ l).drop ((s ++ l).length - 5) := by
  intro l
  induction l with
  | nil =>
    intro s hs
    simp [Nat.sub_eq_zero_of_le hs]
  | cons a l ih =>
    intro s hs
    rw [List.foldl_cons]
    by_cases h5 : 5 < (s ++ [a]).length
    · have hlen : s.length = 5 := by
        simp at h5
        omega
      have hstep : pushRecentIntent s a = (s ++ [a]).tail := by
        rw [show pushRecentIntent s a =
            if 5 < (s ++ [a]).length then (s ++ [a]).tail else s ++ [a] from rfl,
          if_pos h5]
      rcases s with _ | ⟨b, s2⟩
      · simp at hlen
      · have hs2 : s2.length = 4 := by simpa using hlen
        have htail : ((b :: s2) ++ [a]).tail = s2 ++ [a] := by simp
        rw [hstep, htail, ih (s2 ++ [a]) (by simp [hs2])]
        have hcat : (s2 ++ [a]) ++ l = s2 ++ a :: l := by
          simp
        rw [hcat]
        have hL1 : (s2 ++ a :: l).length - 5 = l.length := by
          simp only [List.length_append, List.length_cons, hs2]
          omega
        have hL2 : ((b :: s2) ++ a :: l).length - 5 = l.length + 1 := by
          simp only [List.length_append, List.length_cons, hs2]
          omega
        rw [hL1, hL2]
        rw [show (b :: s2) ++ a :: l = b :: (s2 ++ a :: l) from rfl]
        rw [List.drop_succ_cons]
    · have hstep : pushRecentIntent s a = s ++ [a] := by
        rw [show pushRecentIntent s a =
            if 5 < (s ++ [a]).length then (s ++ [a]).tail else s ++ [a] from rfl,
          if_neg h5]
      rw [hstep, ih (s ++ [a]) (by simp at h5 ⊢; omega)]
      have hcat : (s ++ [a]) ++ l = s ++ a :: l := by simp
      rw [hcat]

/-- The recent-intents buffer of a fold of `_update_conversation_context`
steps is the fold of the FIFO push over the summaries. -/
theorem foldl_updateConversationContext_recents :
    ∀ (turns : List (DynamicIntent × Text)) (c : ConversationContext),
      (turns.foldl (fun ctx p => updateConversationContext ctx p.1 p.2)
          c).recent_intents =
        (turns.map (fun p => summarizeIntent p.1 p.2)).foldl
          pushRecentIntent c.recent_intents := by
  intro turns
  induction turns with
  | nil => intro c; rfl
  | cons p turns ih =>
    intro c
    rw [List.foldl_cons, List.map_cons, List.foldl_cons, ih]
    rfl

/-- The recent-intents buffer of a fold of `_update_advanced_context` steps
is the fold of the same FIFO push over the summaries. -/
theorem foldl_updateAdvancedContext_recents :
    ∀ (turns : List (DynamicIntent × Text)) (c : ConversationContext),
      (turns.foldl (fun ctx p => updateAdvancedContext ctx p.1 p.2)
          c).recent_intents =
        (turns.map (fun p => summarizeIntent p.1 p.2)).foldl
          pushRecentIntent c.recent_intents := by
  intro turns
  induction turns with
  | nil => intro c; rfl
  | cons p turns ih =>
    intro c
    rw [List.foldl_cons, List.map_cons, List.foldl_cons, ih]
    rfl

/-- C6: starting from the empty context, after any sequence of N updates the
recent-intents buffer holds exactly the summaries of the last min(N,5)
intents in arrival order — the oldest entry is evicted first — under both
context-update methods of dynamic_nlu.py. -/
theorem c6_recent_intents_fifo_bound :
    ∀ (turns : List (DynamicIntent × Text)),
      ((turns.foldl (fun ctx p => updateConversationContext ctx p.1 p.2)
            emptyConversationContext).recent_intents =
          (turns.map (fun p => summarizeIntent p.1 p.2)).drop
            (turns.length - 5) ∧
        (turns.foldl (fun ctx p => updateConversationContext ctx p.1 p.2)
            emptyConversationContext).recent_intents.length =
          min turns.length 5) ∧
      ((turns.foldl (fun ctx p => updateAdvancedContext ctx p.1 p.2)
            emptyConversationContext).recent_intents =
          (turns.map (fun p => summarizeIntent p.1 p.2)).drop
            (turns.length - 5) ∧
        (turns.foldl (fun ctx p => updateAdvancedContext ctx p.1 p.2)
            emptyConversationContext).recent_intents.length =
          min turns.length 5) := by
  intro turns
  have hmain : ∀ t2 : List (DynamicIntent × Text),
      (t2.map (fun p => summarizeIntent p.1 p.2)).foldl pushRecentIntent
          emptyConversationContext.recent_intents =
        (t2.map (fun p => summarizeIntent p.1 p.2)).drop (t2.length - 5) := by
    intro t2
    rw [show emptyConversationContext.recent_intents = [] from rfl,
      foldl_pushRecentIntent_eq_drop _ [] (by simp)]
    simp
  have hlen : ((turns.map (fun p => summarizeIntent p.1 p.2)).drop
      (turns.length - 5)).length = min turns.length 5 := by
    simp
    omega
  refine ⟨⟨?_, ?_⟩, ?_, ?_⟩
  · rw [foldl_updateConversationContext_recents turns emptyConversationContext]
    exact hmain turns
  · rw [foldl_updateConversationContext_recents turns emptyConversationContext,
      hmain turns]
    exact hlen
  · rw [foldl_updateAdvancedContext_recents turns emptyConversationContext]
    exact hmain turns
  · rw [foldl_updateAdvancedContext_recents turns emptyConversationContext,
      hmain turns]
    exact hlen

set_option maxRecDepth 100000 in
/-- The source indicator list is the de-duplicated lexicon with one extra
copy of "theek" spliced in after the first 24 entries. -/
theorem romanUrduIndicators_decomp :
    romanUrduIndicators =
      distinctRomanUrduIndicators.take 24 ++ [str "theek"] ++
        distinctRomanUrduIndicators.drop 24 := by
  decide

set_option maxRecDepth 100000 in
/-- The pair "theek", "the" occurs (in order) inside the de-duplicated
lexicon. -/
theorem theek_the_sublist :
    List.Sublist [str "theek", str "the"] distinctRomanUrduIndicators := by
  decide

/-- Any text containing "theek" also contains the indicator "the". -/
theorem containsSub_the_of_theek (t : Text) (h : containsSub t (str "theek") = true) :
    containsSub t (str "the") = true := by
  simp only [containsSub, decide_eq_true_eq] at h ⊢
  have hsub : str "the" <:+: str "theek" := by decide
  exact hsub.trans h

/-- C8: the Roman-Urdu detector fires exactly when at least two distinct
lexicon words occur in the lowercased text and no Arabic-script codepoint
(U+0600 to U+06FF) is present.  The duplicated list entry "theek" never
breaks the two-distinct-hits characterization, because a text containing
"theek" also contains the distinct indicator "the". -/
theorem c8_roman_urdu_detector_characterization :
    ∀ t : Text,
      isRomanUrdu t = true ↔
        (2 ≤ distinctIndicatorHits t ∧ hasUrduScript t = false) := by
  intro t
  have hdistinct : distinctRomanUrduIndicators.take 24 ++
      distinctRomanUrduIndicators.drop 24 = distinctRomanUrduIndicators :=
    List.take_append_drop _ _
  have hscore : (romanUrduIndicators.filter
        (fun w => containsSub (lowerAscii t) w)).length =
      (distinctRomanUrduIndicators.filter
        (fun w => containsSub (lowerAscii t) w)).length +
        (if containsSub (lowerAscii t) (str "theek") = true then 1 else 0) := by
    conv_lhs => rw [romanUrduIndicators_decomp]
    conv_rhs => rw [← hdistinct]
    rw [List.filter_append, List.filter_append, List.filter_append]
    by_cases hth : containsSub (lowerAscii t) (str "theek") = true <;>
      simp [hth] <;> omega
  have htwo : containsSub (lowerAscii t) (str "theek") = true →
      2 ≤ (distinctRomanUrduIndicators.filter
        (fun w => containsSub (lowerAscii t) w)).length := by
    intro hth
    have hthe := containsSub_the_of_theek (lowerAscii t) hth
    have hfsub := theek_the_sublist.filter
      (fun w => containsSub (lowerAscii t) w)
    have hpair : ([str "theek", str "the"].filter
        (fun w => containsSub (lowerAscii t) w)) =
        [str "theek", str "the"] := by
      simp [hth, hthe]
    rw [hpair] at hfsub
    simpa using hfsub.length_le
  rw [show isRomanUrdu t =
      (decide (2 ≤ (romanUrduIndicators.filter
          (fun w => containsSub (lowerAscii t) w)).length) &&
        !hasUrduScript t) from rfl]
  rw [Bool.and_eq_true, decide_eq_true_eq, Bool.not_eq_true']
  rw [show distinctIndicatorHits t = (distinctRomanUrduIndicators.filter
      (fun w => containsSub (lowerAscii t) w)).length from rfl]
  constructor
  · rintro ⟨hs, hscript⟩
    refine ⟨?_, hscript⟩
    by_cases hth : containsSub (lowerAscii t) (str "theek") = true
    · exact htwo hth
    · rw [hscore, if_neg hth] at hs
      omega
  · rintro ⟨hd, hscript⟩
    refine ⟨?_, hscript⟩
    rw [hscore]
    by_cases hth : containsSub (lowerAscii t) (str "theek") = true <;>
      [rw [if_pos hth]; rw [if_neg hth]] <;> omega

/-- Unfolding equation of the retry recursion at a successor fuel value. -/
theorem askUnderFailure_succ (k : ℕ) (fb : Text) (fuel : ℕ) (s : BrainState)
    (now : ℚ) :
    askUnderFailure k fb (fuel + 1) s now =
      match geminiAskGate s now with
      | .rateLimited msg => some msg
      | .modelAttempt s2 =>
        if 1 < k then askUnderFailure k fb fuel s2 now else some fb := rfl

/-- Once the daily reset can no longer fire, every retry increments the daily
counter, so the recursion returns within the remaining daily budget. -/
theorem askUnderFailure_terminates_aux :
    ∀ (fuel : ℕ) (k : ℕ) (fb : Text) (s : BrainState) (now : ℚ),
      1 ≤ fuel → now - s.last_reset_time ≤ 86400 →
      1401 ≤ fuel + s.daily_requests →
      (askUnderFailure k fb fuel s now).isSome = true := by
  intro fuel
  induction fuel with
  | zero =>
    intro k fb s now h1 _ _
    exact absurd h1 (by omega)
  | succ fuel ih =>
    intro k fb s now _ hday hbound
    have hreset : resetIfNewDay s now = s := by
      unfold resetIfNewDay
      rw [if_neg (not_lt.mpr hday)]
    by_cases hd : requestsPerDay ≤ s.daily_requests
    · have hgate : geminiAskGate s now = .rateLimited rateLimitMessage := by
        simp [geminiAskGate, checkRateLimits, hreset, hd]
      simp [askUnderFailure, hgate]
    · by_cases hm : requestsPerMinute ≤ recentRequestCount s now
      · have hgate : geminiAskGate s now = .rateLimited rateLimitMessage := by
          simp [geminiAskGate, checkRateLimits, hreset, hd, hm]
        simp [askUnderFailure, hgate]
      · have hgate : geminiAskGate s now = .modelAttempt (recordRequest s now) := by
          simp [geminiAskGate, checkRateLimits, hreset, hd, hm]
        have hd2 : s.daily_requests < 1400 := by
          simpa [requestsPerDay] using hd
        by_cases hk : 1 < k
        · have hrec : (askUnderFailure k fb fuel (recordRequest s now) now).isSome
              = true := by
            apply ih
            · omega
            · show now - (recordRequest s now).last_reset_time ≤ 86400
              simpa [recordRequest] using hday
            · show 1401 ≤ fuel + (recordRequest s now).daily_requests
              simp only [recordRequest]
              omega
          simp [askUnderFailure, hgate, hk, hrec]
        · simp [askUnderFailure, hgate, hk]

/-- C9: `ask` always terminates with a string under persistent API failure.
Every invocation that passes the rate-limit gate increments the daily counter
before the model attempt, and the recursive retry is re-guarded by the same
gate, so a fuel of 1402 (one possible daily reset plus the 1400 daily budget
plus the final short-circuit) is always enough for the recursion to return. -/
theorem c9_ask_terminates_within_daily_budget :
    (∀ (s : BrainState) (now : ℚ),
      (recordRequest (resetIfNewDay s now) now).daily_requests =
        (resetIfNewDay s now).daily_requests + 1) ∧
    (∀ (k : ℕ) (fb : Text) (s : BrainState) (now : ℚ),
      (askUnderFailure k fb 1402 s now).isSome = true) := by
  constructor
  · intro s now
    rfl
  · intro k fb s now
    by_cases hday : now - s.last_reset_time ≤ 86400
    · exact askUnderFailure_terminates_aux 1402 k fb s now (by omega) hday
        (by omega)
    · have hreset : resetIfNewDay s now =
          { s with daily_requests := 0, last_reset_time := now } := by
        unfold resetIfNewDay
        rw [if_pos (not_le.mp hday)]
      by_cases hm : requestsPerMinute ≤
          recentRequestCount { s with daily_requests := 0, last_reset_time := now } now
      · have hgate : geminiAskGate s now = .rateLimited rateLimitMessage := by
          simp [geminiAskGate, checkRateLimits, hreset, hm, requestsPerDay]
        rw [show (1402 : ℕ) = 1401 + 1 from rfl, askUnderFailure_succ, hgate]
        rfl
      · have hgate : geminiAskGate s now = .modelAttempt
            (recordRequest { s with daily_requests := 0, last_reset_time := now } now) := by
          simp [geminiAskGate, checkRateLimits, hreset, hm, requestsPerDay]
        rw [show (1402 : ℕ) = 1401 + 1 from rfl, askUnderFailure_succ, hgate]
        by_cases hk : 1 < k
        · have hrec : (askUnderFailure k fb 1401
              (recordRequest { s with daily_requests := 0, last_reset_time := now } now)
              now).isSome = true := by
            apply askUnderFailure_terminates_aux
            · omega
            · show now - (recordRequest
                  { s with daily_requests := 0, last_reset_time := now } now).last_reset_time
                  ≤ 86400
              simp [recordRequest]
            · show 1401 ≤ 1401 + (recordRequest
                  { s with daily_requests := 0, last_reset_time := now } now).daily_requests
              omega
          simpa [hk] using hrec
        · simp [hk]
